import Mathlib

/-!
Verification of the `atgmlogger-plugins` MQTT plugin
(`src/atgmlogger_plugins/mqtt.py`) against its specification.

The module is shallowly embedded: Python floats are modelled as rationals
(every value occurring in the claims is exactly representable as an IEEE
double, so the arithmetic identities transfer), Python exceptions as an
explicit `Except`/error value, and the two sources of environmental input
(`datetime.utcnow()` and the process's local UTC offset, which
`datetime.timestamp()` applies to naive datetimes) as explicit parameters
`now` and `off` threaded through the definitions.
-/

/-- A Python value as it appears in the published JSON `v` object:
an `int`, a `float` (modelled as ℚ) or a `str`. -/
inductive Value where
  | vInt : Int → Value
  | vFloat : ℚ → Value
  | vStr : String → Value
deriving DecidableEq, Repr

/-- The Python exceptions that the embedded fragments of `mqtt.py` can
raise: `IndexError` (out-of-range `data[i]` / `fields[-1]`),
`ZeroDivisionError` (`tick % 0`), `ValueError` (missing endpoint),
`TypeError` (`'/'.join` over a `None` element), and a stand-in for any
exception raised by the external SDK's `publish` call. -/
inductive PyErr where
  | indexError
  | zeroDivisionError
  | valueError
  | typeError
  | publishError
deriving DecidableEq, Repr

/-- Decidable equality for `Except`, so that concrete runs of the
embedded fallible functions can be checked by `decide`. -/
instance exceptDecEq {ε α : Type} [DecidableEq ε] [DecidableEq α] :
    DecidableEq (Except ε α) := fun a b =>
  match a, b with
  | .error e, .error f =>
    match decEq e f with
    | isTrue h => isTrue (congrArg Except.error h)
    | isFalse h => isFalse (fun hh => h (Except.error.inj hh))
  | .ok x, .ok y =>
    match decEq x y with
    | isTrue h => isTrue (congrArg Except.ok h)
    | isFalse h => isFalse (fun hh => h (Except.ok.inj hh))
  | .error _, .ok _ => isFalse (fun hh => Except.noConfusion hh)
  | .ok _, .error _ => isFalse (fun hh => Except.noConfusion hh)

/-- Exact subtraction on ℚ, written with `mkRat` so that concrete instances
reduce inside the kernel (the library's `Rat.sub` is `@[irreducible]`);
`ratSub_eq` identifies it with the ordinary subtraction. -/
def ratSub (a b : ℚ) : ℚ :=
  mkRat (a.num * (b.den : Int) - b.num * (a.den : Int)) (a.den * b.den)

/-- Numeric value of a list of decimal digit characters. -/
def natOfDigits (s : List Char) : Nat :=
  s.foldl (fun a c => a * 10 + (c.toNat - 48)) 0

/-- Strip an optional leading sign, returning (isNegative, rest). -/
def stripSign : List Char → Bool × List Char
  | '-' :: r => (true, r)
  | '+' :: r => (false, r)
  | r => (false, r)

/-- Model of Python `int(token)` on the clean telemetry tokens this plugin
processes: an optional sign followed by one or more decimal digits.
`none` models the `ValueError` raised on anything else.  (Python's `int`
additionally tolerates surrounding whitespace and digit-group
underscores; telemetry tokens contain neither, and no claim depends on
those inputs.) -/
def pyParseInt (s : String) : Option Int :=
  let sr := stripSign s.toList
  if sr.2 ≠ [] ∧ sr.2.all (·.isDigit) then
    some (if sr.1 then -(natOfDigits sr.2 : Int) else (natOfDigits sr.2 : Int))
  else none

/-- Model of Python `float(token)` on decimal literals: optional sign,
then digits with at most one decimal point and at least one digit
overall.  `none` models `ValueError` (e.g. on the malformed fused token
`"0.0040330.9400"` of the sample marine line, which contains two dots).
Exponent/`inf`/`nan` forms do not occur in telemetry tokens and are not
modelled. -/
def pyParseFloat (s : String) : Option ℚ :=
  let sr := stripSign s.toList
  let mag : Option ℚ :=
    match sr.2.splitOn '.' with
    | [ip] =>
      if ip ≠ [] ∧ ip.all (·.isDigit) then some ((natOfDigits ip : ℚ)) else none
    | [ip, fp] =>
      if (ip ≠ [] ∨ fp ≠ []) ∧ ip.all (·.isDigit) ∧ fp.all (·.isDigit) then
        some (mkRat (natOfDigits ip * 10 ^ fp.length + natOfDigits fp) (10 ^ fp.length))
      else none
    | _ => none
  mag.map (fun q => if sr.1 then -q else q)

/-- Gregorian leap year. -/
def isLeap (y : Nat) : Bool :=
  (y % 4 = 0 ∧ y % 100 ≠ 0) ∨ y % 400 = 0

/-- Number of days in month `m` of year `y`. -/
def daysInMonth (y m : Nat) : Nat :=
  if m = 2 then (if isLeap y then 29 else 28)
  else if m = 4 ∨ m = 6 ∨ m = 9 ∨ m = 11 then 30
  else 31

/-- Days from 1970-01-01 to the civil date `y-m-d` (standard
era/year-of-era civil-calendar computation, floor division). -/
def daysFromCivil (y m d : Nat) : Int :=
  let y' : Int := if m ≤ 2 then (y : Int) - 1 else (y : Int)
  let era : Int := y'.fdiv 400
  let yoe : Int := y' - era * 400
  let mp : Int := if 2 < m then (m : Int) - 3 else (m : Int) + 9
  let doy : Int := (153 * mp + 2).fdiv 5 + (d : Int) - 1
  let doe : Int := yoe * 365 + yoe.fdiv 4 - yoe.fdiv 100 + doy
  era * 146097 + doe - 719468

/-- Model of `datetime.strptime(s, '%Y%m%d%H%M%S')`: exactly 14 decimal
digits split as year(4), month(2), day(2), hour(2), minute(2), second(2),
validated by the `datetime` constructor (`year ≥ 1`, month 1–12, day
within the month, hour ≤ 23, minute ≤ 59, second ≤ 59).  On success the
result is the number of seconds between 1970-01-01T00:00:00 and that
calendar reading (timezone-free); `none` models the `ValueError` path. -/
def parseYmdHms (s : String) : Option Int :=
  let cs := s.toList
  if cs.length = 14 ∧ cs.all (·.isDigit) then
    let y := natOfDigits (cs.take 4)
    let mo := natOfDigits ((cs.drop 4).take 2)
    let d := natOfDigits ((cs.drop 6).take 2)
    let h := natOfDigits ((cs.drop 8).take 2)
    let mi := natOfDigits ((cs.drop 10).take 2)
    let sec := natOfDigits ((cs.drop 12).take 2)
    if 1 ≤ y ∧ 1 ≤ mo ∧ mo ≤ 12 ∧ 1 ≤ d ∧ d ≤ daysInMonth y mo ∧
       h ≤ 23 ∧ mi ≤ 59 ∧ sec ≤ 59 then
      some (daysFromCivil y mo d * 86400 + (h : Int) * 3600 + (mi : Int) * 60 + (sec : Int))
    else none
  else none

/-- Embeds `convert_time` (mqtt.py lines 126–131).

Python semantics being modelled: `datetime.strptime` yields a *naive*
datetime, and `.timestamp()` interprets a naive datetime in the process's
local timezone, so the result is the calendar reading minus the local UTC
offset `off` (in seconds).  On `ValueError` the code falls back to
`datetime.utcnow().timestamp()`: `utcnow()` is the naive UTC calendar
reading of the current instant `now` (true Unix time of the call), and
`.timestamp()` again subtracts `off`. -/
def convert_time (off : Int) (now : ℚ) (meter_time : String) : ℚ :=
  match parseYmdHms meter_time with
  | some c => ((c - off : Int) : ℚ)
  | none => ratSub now ((off : Int) : ℚ)

/-- Embeds `convert_gps_time` (mqtt.py lines 81–114):
`gps_delta + (week * gpsweek_cf + weekseconds)` with
`gps_delta = 315964800.0`, `gpsweek_cf = 604800`. -/
def convert_gps_time (gpsweek gpsweekseconds : ℚ) : ℚ :=
  let gps_delta : ℚ := 315964800
  let gpsweek_cf : ℚ := 604800
  let gps_ticks : ℚ := gpsweek * gpsweek_cf + gpsweekseconds
  gps_delta + gps_ticks

/-- Helper for `pySplit`: split a character list at every comma,
accumulating the current token in reverse. -/
def splitCommaAux : List Char → List Char → List String
  | [], acc => [⟨acc.reverse⟩]
  | c :: rest, acc =>
    if c = ',' then ⟨acc.reverse⟩ :: splitCommaAux rest []
    else splitCommaAux rest (c :: acc)

/-- Model of Python `s.split(',')`: one token per comma-separated
segment, `[""]` on the empty string (structurally recursive so that
concrete instances reduce in the kernel, unlike `String.split`). -/
def pySplit (s : String) : List String :=
  splitCommaAux s.data []

/-- Model of Python `s.lower()` (ASCII data; structurally recursive,
unlike `String.toLower`). -/
def pyLower (s : String) : String :=
  ⟨s.data.map Char.toLower⟩

/-- Embeds the class attribute `MQTTClient._marine_fieldmap`
(mqtt.py lines 148–151): the positional field names of the marine format. -/
def _marine_fieldmap : List String :=
  ["header", "gravity", "long", "cross", "beam", "temp",
   "pressure", "etemp", "vcc", "ve", "al",
   "ax", "status", "checksum", "latitude", "longitude",
   "speed", "course", "datetime"]

/-- Embeds the class-attribute default `MQTTClient.fields`
(mqtt.py line 144): the forward-list used when the host configuration
does not override it. -/
def fields_default : List String :=
  ["gravity", "long", "cross", "latitude", "longitude", "datetime"]

/-- Embeds `MQTTClient._field_casts.get(field, int)` (mqtt.py lines
154–163), keyed by the already-lowercased field name: `header ↦ str`,
`gravity`/`latitude`/`longitude`/`speed`/`course ↦ float`,
`datetime ↦ convert_time`, anything else `↦ int`.  `none` models the
`ValueError` that `int`/`float` raise on a malformed token;
`convert_time` never raises (it catches its own `ValueError`). -/
def _field_casts (off : Int) (now : ℚ) (field : String) (tok : String) : Option Value :=
  if field = "header" then some (.vStr tok)
  else if field = "gravity" ∨ field = "latitude" ∨ field = "longitude" ∨
          field = "speed" ∨ field = "course" then
    (pyParseFloat tok).map .vFloat
  else if field = "datetime" then some (.vFloat (convert_time off now tok))
  else (pyParseInt tok).map .vInt

/-- The `try/except ValueError` around the cast (mqtt.py lines 180–184):
on cast success store the cast value, on `ValueError` store the raw
string token. -/
def castOrRaw (off : Int) (now : ℚ) (field tok : String) : Value :=
  match _field_casts off now (pyLower field) tok with
  | some v => v
  | none => .vStr tok

/-- The `for i, field in enumerate(fieldmap)` loop body of
`extract_fields` (mqtt.py lines 178–184), started at index `i`: fields
whose lowercased name is not in the forward-list `fields` are skipped;
for the others, `data[i]` out of range is an uncaught `IndexError`
(only `ValueError` is handled), and otherwise the cast-or-raw value is
recorded under the field's name (fieldmap order = Python dict insertion
order). -/
def extractLoop (fields : List String) (off : Int) (now : ℚ)
    (toks : List String) : Nat → List String → Except PyErr (List (String × Value))
  | _, [] => .ok []
  | i, f :: rest =>
    if pyLower f ∈ fields then
      match toks[i]? with
      | none => .error .indexError
      | some tok =>
        match extractLoop fields off now toks (i + 1) rest with
        | .error e => .error e
        | .ok m => .ok ((f, castOrRaw off now f tok) :: m)
    else extractLoop fields off now toks (i + 1) rest

/-- Embeds the classmethod `MQTTClient.extract_fields(data, fieldmap)`
(mqtt.py lines 174–185).  `fields` is the configured forward-list
(`cls.fields`), `off`/`now` the timestamp environment of `convert_time`.
The result is the extracted name/value association in fieldmap order, or
the uncaught Python exception. -/
def extract_fields (fields : List String) (off : Int) (now : ℚ)
    (data : String) (fieldmap : List String) : Except PyErr (List (String × Value)) :=
  extractLoop fields off now (pySplit data) 0 fieldmap

/-- The host-supplied configuration attributes relevant to
`configure_client` (mqtt.py lines 135–145, 197–220).  `none` means the
option is absent from the host configuration. -/
structure MqttConfig where
  sensorid : Option String
  topicid : Option String
  topic_pfx : String
  endpoint : Option String
deriving DecidableEq, Repr

/-- The observable result of `configure_client`: the `self.sensorid`
attribute after the call (`none` models Python `None`) and the publish
topic.  The external AWSIoT client construction/connection is out of
scope (treated as an external capability, per the spec). -/
structure ConfiguredClient where
  sensorid : Option String
  topic : String
deriving DecidableEq, Repr

/-- Embeds `MQTTClient.configure_client` (mqtt.py lines 197–220) together
with the attribute initialization of `__init__` (line 171).

`rand8` stands for the freshly drawn `str(uuid4())[0:8]`.  Because
`__init__` unconditionally executes `self.sensorid = None`, the instance
attribute `sensorid` always exists when `configure_client` runs, so
`getattr(self, 'sensorid', rand8)` returns the attribute (the configured
value, or `None` when unconfigured) and never the `rand8` default — the
definition is faithful in ignoring `rand8`.  `topicid` has no class or
instance default, so `getattr(self, 'topicid', self.sensorid)` does fall
back to `self.sensorid`; if that is still `None`, the subsequent
`'/'.join([self.topic_pfx, topicid])` raises `TypeError` (uncaught: the
`except` clause handles only `AttributeError`). -/
def configure_client (cfg : MqttConfig) (rand8 : String) : Except PyErr ConfiguredClient :=
  match cfg.endpoint with
  | none => .error .valueError
  | some _ =>
    let sensorid : Option String := cfg.sensorid
    let topicid : Option String :=
      match cfg.topicid with
      | some t => some t
      | none => sensorid
    match topicid with
    | none => .error .typeError
    | some t => .ok { sensorid := sensorid, topic := cfg.topic_pfx ++ "/" ++ t }

/-- One successful MQTT publish call as issued by the run loop
(mqtt.py lines 240–242): topic, the JSON payload fields
`d` (sensorid, `none` = JSON null), `t` (timestamp) and `v`
(extracted field object), and the QoS argument. -/
structure Publish where
  topic : String
  d : Option String
  t : ℚ
  v : List (String × Value)
  qos : Nat
deriving DecidableEq, Repr

/-- The run loop's mutable instance state (mqtt.py lines 170–172):
`self.tick`, `self._errcount`, plus the log of successful publishes. -/
structure LoopState where
  tick : Nat
  errcount : Nat
  published : List Publish
deriving DecidableEq, Repr

/-- Modelled from the spec: one element of the host's consumer-queue
interface, which is code of this repository outside `src/`
(`PluginInterface` provides `self.get`, `self.task_done`, `self.exiting`;
the spec gives the contract `{ next() -> optional<string>, ack(),
is_stopping() -> bool }`).  `item` is the value returned by
`self.get(block=True, timeout=None)` (`none` = Python `None`); `pubOk`
says whether the external SDK's `publish` call would succeed at this
point, and `now`/the config's `off` fix the wall-clock environment of
`convert_time` for this iteration. -/
structure LoopInput where
  item : Option String
  pubOk : Bool
  now : ℚ
deriving DecidableEq, Repr

/-- The per-item outcome of one iteration of the run loop:
`skipped` = the `task_done(); continue` branch for empty/absent or
throttled items; `attempted b` = the forward branch was entered (tick
reset), with `b` recording whether the publish succeeded;
`divErr` = the `tick % 0` `ZeroDivisionError` raised by the loop
condition itself. -/
inductive ItemOutcome where
  | skipped
  | attempted (published : Bool)
  | divErr
deriving DecidableEq, Repr

/-- Tests whether the forward branch was entered for this item. -/
def ItemOutcome.attemptedb : ItemOutcome → Bool
  | .attempted _ => true
  | _ => false

/-- The `item is None or item == ""` prefix of the loop condition
(mqtt.py line 227). -/
def isEmptyItem : Option String → Bool
  | none => true
  | some l => l = ""

/-- The configuration the run loop reads: `self.interval`,
`cls.fields`, `self.sensorid`, the topic computed by `configure_client`,
and the process's local UTC offset. -/
structure Config where
  interval : Nat
  fields : List String
  sensorid : Option String
  topic : String
  off : Int
deriving DecidableEq, Repr

/-- The `except:` handler of the run loop (mqtt.py lines 244–251): log
(not modelled), increment `self._errcount`, and re-raise — terminating
the loop — exactly when the incremented counter exceeds 10.  `task_done`
is not called on this path. -/
def stepExc (s : LoopState) (e : PyErr) : ItemOutcome × LoopState × Option PyErr :=
  let s' := { s with errcount := s.errcount + 1 }
  (.attempted false, s', if 10 < s'.errcount then some e else none)

/-- One iteration of the `while not self.exiting` body (mqtt.py lines
225–251) on input `inp` from state `s`.  Returns the item outcome, the
successor state, and `some e` when the iteration terminates the loop by
raising `e`.  The condition on line 227 short-circuits: for an empty or
absent item the `self.tick % self.interval` expression is never
evaluated, so `interval = 0` only raises `ZeroDivisionError` on a
non-empty item.  In the forward branch `self.tick = 0` runs first, so
the tick is reset even when the rest of the branch raises.  Python
computes `timestamp = convert_time(fields[-1])` before extracting; both
are pure and `convert_time` never raises, so inlining the timestamp at
its use site is observationally identical. -/
def step (cfg : Config) (s : LoopState) (inp : LoopInput) :
    ItemOutcome × LoopState × Option PyErr :=
  match inp.item with
  | none => (.skipped, { s with tick := s.tick + 1 }, none)
  | some line =>
    if line = "" then (.skipped, { s with tick := s.tick + 1 }, none)
    else if cfg.interval = 0 then
      (.divErr, { s with tick := s.tick + 1 }, some .zeroDivisionError)
    else if (s.tick + 1) % cfg.interval ≠ 0 then
      (.skipped, { s with tick := s.tick + 1 }, none)
    else
      match (pySplit line).getLast? with
      | none => stepExc { s with tick := 0 } .indexError
      | some lastTok =>
        if (pySplit line).length = 0 then (.attempted false, { s with tick := 0 }, none)
        else
          match extract_fields cfg.fields cfg.off inp.now line _marine_fieldmap with
          | .error e => stepExc { s with tick := 0 } e
          | .ok data_dict =>
            if inp.pubOk then
              (.attempted true,
               { s with tick := 0, published := s.published ++
                   [{ topic := cfg.topic, d := cfg.sensorid,
                      t := convert_time cfg.off inp.now lastTok,
                      v := data_dict, qos := 0 }] }, none)
            else stepExc { s with tick := 0 } .publishError

/-- The `while not self.exiting` loop (mqtt.py lines 224–251) run over a
finite list of inputs; the shutdown flag is observed once the list is
exhausted (the flag is only checked between items).  Stops early when an
iteration raises. -/
def runLoop (cfg : Config) : LoopState → List LoopInput →
    List ItemOutcome × LoopState × Option PyErr
  | s, [] => ([], s, none)
  | s, inp :: rest =>
    match step cfg s inp with
    | (o, s', some e) => ([o], s', some e)
    | (o, s', none) =>
      let r := runLoop cfg s' rest
      (o :: r.1, r.2)

/-- The observable result of `MQTTClient.run` from the top of the loop:
per-item outcomes, final counters/publish log, the exception propagating
out of `run` (if any), and how many times `self.client.disconnect()` ran. -/
structure RunResult where
  outcomes : List ItemOutcome
  final : LoopState
  error : Option PyErr
  disconnects : Nat
deriving DecidableEq, Repr

/-- Embeds the body of `MQTTClient.run` after `configure_client`
(mqtt.py lines 224–253).  `self.client.disconnect()` (line 253) is the
statement after the loop, with no `try/finally` around the loop: it runs
exactly when the loop exits normally via the shutdown flag, and is
skipped when an exception propagates. -/
def run (cfg : Config) (inputs : List LoopInput) : RunResult :=
  match runLoop cfg { tick := 0, errcount := 0, published := [] } inputs with
  | (os, s, some e) => { outcomes := os, final := s, error := some e, disconnects := 0 }
  | (os, s, none) => { outcomes := os, final := s, error := none, disconnects := 1 }

/-- The sample marine line from the module's own comment (mqtt.py line
120), verbatim.  Note it has only 18 comma-separated tokens against the
19-entry marine fieldmap: the 17th token `0.0040330.9400` fuses the
`speed` and `course` values (a comma is missing). -/
def sampleLine : String :=
  "$UW,20083,-1369,-940,5104887,252,466,212,4502,400,-24,-16,4430,5128453,39.9092261667,-105.0747506667,0.0040330.9400,20171206173348"

/-- Variant of `sampleLine` with the missing comma restored between the
`speed` and `course` tokens, giving the 19 tokens the marine fieldmap
describes. -/
def sampleLineFixed : String :=
  "$UW,20083,-1369,-940,5104887,252,466,212,4502,400,-24,-16,4430,5128453,39.9092261667,-105.0747506667,0.0040,330.9400,20171206173348"

/-- The second sample marine line from the module comment (mqtt.py line
121): 19 tokens, with an invalid `datetime` token `00000000000022`. -/
def sampleLine2 : String :=
  "$UW,-9696,-7781,4628,4118252,257,409,199,32888,128,73,-42,4362,4139315,39.9092032667,-105.0747801500,0.0000,0.0000,00000000000022"

/-- A well-formed input item: the second sample line, publish succeeding. -/
def goodInput : LoopInput := { item := some sampleLine2, pubOk := true, now := 0 }

/-- An empty line, as the producer delivers between data bursts. -/
def emptyInput : LoopInput := { item := some "", pubOk := true, now := 0 }

/-- A one-token line: `extract_fields` raises `IndexError` on it (the
first forwarded field, `gravity`, sits at position 1), so every forward
attempt on it is a processing exception regardless of the publisher. -/
def badInput : LoopInput := { item := some "x", pubOk := true, now := 0 }

/-- Builds `n` consecutive `badInput` items. -/
def badInputs (n : Nat) : List LoopInput := List.replicate n badInput

/-- A concrete configuration with the default `interval = 1`. -/
def cfgBad : Config :=
  { interval := 1, fields := fields_default, sensorid := some "sensor01",
    topic := "gravity/sensor01", off := 0 }

/-- A concrete configuration with `interval = 2`. -/
def cfgW : Config :=
  { interval := 2, fields := fields_default, sensorid := some "sensor01",
    topic := "gravity/sensor01", off := 0 }

/-- A concrete configuration with `interval = 0`. -/
def cfgZ : Config :=
  { interval := 0, fields := fields_default, sensorid := some "sensor01",
    topic := "gravity/sensor01", off := 0 }

/-- The input list for the throttling witness: items 1 and 3 (0-indexed)
sit on the even positions an `interval = 2` schedule forwards at; item 1
is empty. -/
def inputsW : List LoopInput := [goodInput, emptyInput, goodInput, goodInput]

/-- The end-to-end configuration of the spec's sample: forward-fields
`[gravity, latitude, longitude, datetime]`. -/
def cfg5 : Config :=
  { interval := 1, fields := ["gravity", "latitude", "longitude", "datetime"],
    sensorid := some "sensor01", topic := "gravity/sensor01", off := 0 }

/-! ## Lemmas and claim theorems -/

theorem den_cast_ne (a : ℚ) : ((a.den : ℚ)) ≠ 0 :=
  Nat.cast_ne_zero.mpr a.den_nz

theorem ratSub_eq (a b : ℚ) : ratSub a b = a - b := by
  rw [ratSub, Rat.mkRat_eq_div]
  push_cast
  conv_rhs => rw [← Rat.num_div_den a, ← Rat.num_div_den b]
  rw [div_sub_div _ _ (den_cast_ne a) (den_cast_ne b)]
  ring_nf

/-- Characterization of the `extract_fields` loop: when the token list is
long enough from the start index on, the loop succeeds and returns, in
fieldmap order, the cast-or-raw value of each forwarded field's token. -/
theorem extractLoop_ok (fields : List String) (off : Int) (now : ℚ) (toks : List String) :
    ∀ (fieldmap : List String) (i : Nat), i + fieldmap.length ≤ toks.length →
    extractLoop fields off now toks i fieldmap =
      .ok ((fieldmap.enumFrom i).filterMap (fun p =>
        if pyLower p.2 ∈ fields then
          some (p.2, castOrRaw off now p.2 (toks.getD p.1 ""))
        else none)) := by
  intro fieldmap
  induction fieldmap with
  | nil => intro i h; simp [extractLoop]
  | cons f rest ih =>
    intro i h
    have hi : i < toks.length := by simp at h; omega
    have hrest : (i + 1) + rest.length ≤ toks.length := by simp at h; omega
    unfold extractLoop
    by_cases hf : pyLower f ∈ fields
    · rw [if_pos hf]
      rw [List.getElem?_eq_getElem hi]
      rw [ih (i + 1) hrest]
      rw [List.enumFrom_cons]
      rw [List.filterMap_cons]
      simp only [if_pos hf]
      rw [List.getD_eq_getElem toks "" hi]
    · rw [if_neg hf]
      rw [ih (i + 1) hrest]
      rw [List.enumFrom_cons]
      rw [List.filterMap_cons]
      simp only [if_neg hf]

/-- C4: `extract_fields` is total on lines with at least as many
comma-separated tokens as the fieldmap has entries — it never raises, each
positional field whose lowercased name is in the forward-list is stored as
its Field-Cast-Table value (default `int`), a failing cast falls back to
the raw string token via `castOrRaw` (so a single cast failure never drops
the record), and fields not requested are omitted. -/
theorem C4_extract_fields_total (fields : List String) (off : Int) (now : ℚ)
    (data : String) (fieldmap : List String)
    (h : fieldmap.length ≤ (pySplit data).length) :
    extract_fields fields off now data fieldmap =
      .ok ((fieldmap.enum).filterMap (fun p =>
        if pyLower p.2 ∈ fields then
          some (p.2, castOrRaw off now p.2 ((pySplit data).getD p.1 ""))
        else none)) := by
  unfold extract_fields
  have := extractLoop_ok fields off now (pySplit data) fieldmap 0 (by omega)
  simpa [List.enum] using this

/-- Witness for C4 at the second sample marine line with the default
forward-list: the extraction succeeds with cast and fallback values. -/
theorem C4_extract_fields_total_witness :
    _marine_fieldmap.length ≤ (pySplit sampleLine2).length ∧
    extract_fields fields_default 0 0 sampleLine2 _marine_fieldmap =
      .ok [("gravity", .vFloat (-(mkRat 9696 1))), ("long", .vInt (-7781)),
           ("cross", .vInt 4628),
           ("latitude", .vFloat (mkRat 399092032667 10000000000)),
           ("longitude", .vFloat (-(mkRat 1050747801500 10000000000))),
           ("datetime", .vFloat (mkRat 0 1))] :=
  ⟨by decide,
   (C4_extract_fields_total fields_default 0 0 sampleLine2 _marine_fieldmap
      (by decide)).trans (by decide)⟩

/-- C9: `extract_fields` is not deterministic — whenever the `datetime`
token fails to parse, the stored `datetime` value is the current
wall-clock reading (`now` minus the local offset), not the raw token, so
the identical input line extracted at two different instants yields two
different outputs. -/
theorem C9_extract_fields_nondeterministic :
    (∀ (off : Int) (now : ℚ) (tok : String), parseYmdHms tok = none →
      castOrRaw off now "datetime" tok = .vFloat (ratSub now ((off : Int) : ℚ))) ∧
    extract_fields fields_default 0 (mkRat 100 1) sampleLine2 _marine_fieldmap ≠
      extract_fields fields_default 0 (mkRat 200 1) sampleLine2 _marine_fieldmap ∧
    ((extract_fields fields_default 0 (mkRat 100 1) sampleLine2 _marine_fieldmap).toOption.bind
      (fun out => out.lookup "datetime")) = some (.vFloat (mkRat 100 1)) := by
  refine ⟨?_, by decide, by decide⟩
  intro off now tok hp
  have h1 : _field_casts off now "datetime" tok = some (.vFloat (convert_time off now tok)) := rfl
  have h2 : pyLower "datetime" = "datetime" := rfl
  unfold castOrRaw
  rw [h2, h1]
  unfold convert_time
  rw [hp]

/-- Witness for C9: the `datetime` cast of an unparseable token evaluates
to the current-time fallback. -/
theorem C9_witness :
    castOrRaw 0 (mkRat 5 1) "datetime" "not-a-date" = .vFloat (ratSub (mkRat 5 1) ((0 : Int) : ℚ)) :=
  C9_extract_fields_nondeterministic.1 0 (mkRat 5 1) "not-a-date" (by decide)

/-- Iteration on an absent or empty item: mark consumed and skip, with the
tick incremented and the `tick % interval` expression never evaluated. -/
theorem step_empty (cfg : Config) (s : LoopState) (inp : LoopInput)
    (h : isEmptyItem inp.item = true) :
    step cfg s inp = (.skipped, { s with tick := s.tick + 1 }, none) := by
  unfold step
  rcases hi : inp.item with _ | line
  · rfl
  · rw [hi] at h
    have hline : line = "" := by simpa [isEmptyItem] using h
    dsimp only
    rw [if_pos hline]

/-- Iteration on a non-empty item off the interval schedule: mark consumed
and skip, with the tick incremented. -/
theorem step_throttled (cfg : Config) (s : LoopState) (inp : LoopInput) (line : String)
    (hi : inp.item = some line) (hline : line ≠ "") (hN : cfg.interval ≠ 0)
    (hmod : (s.tick + 1) % cfg.interval ≠ 0) :
    step cfg s inp = (.skipped, { s with tick := s.tick + 1 }, none) := by
  unfold step
  rw [hi]
  dsimp only
  rw [if_neg hline, if_neg hN, if_pos hmod]

/-- Iteration on a non-empty item on the interval schedule: the forward
branch is entered, the tick is reset to 0, and the error counter never
decreases. -/
theorem step_forward (cfg : Config) (s : LoopState) (inp : LoopInput) (line : String)
    (hi : inp.item = some line) (hline : line ≠ "") (hN : cfg.interval ≠ 0)
    (hmod : (s.tick + 1) % cfg.interval = 0) :
    ∃ (b : Bool) (s' : LoopState) (fat : Option PyErr),
      step cfg s inp = (.attempted b, s', fat) ∧ s'.tick = 0 ∧
      s.errcount ≤ s'.errcount := by
  unfold step
  rw [hi]
  dsimp only
  rw [if_neg hline, if_neg hN, if_neg (fun hc => hc hmod)]
  rcases hg : (pySplit line).getLast? with _ | lastTok
  · exact ⟨false, _, _, rfl, rfl, by simp [stepExc]⟩
  · dsimp only
    by_cases hz : (pySplit line).length = 0
    · rw [if_pos hz]
      exact ⟨false, _, _, rfl, rfl, le_refl _⟩
    · rw [if_neg hz]
      rcases hx : extract_fields cfg.fields cfg.off inp.now line _marine_fieldmap with e | m
      · exact ⟨false, _, _, rfl, rfl, by simp [stepExc]⟩
      · dsimp only
        by_cases hp : inp.pubOk
        · rw [if_pos hp]
          exact ⟨true, _, _, rfl, rfl, le_refl _⟩
        · rw [if_neg (by simpa using hp)]
          exact ⟨false, _, _, rfl, rfl, by simp [stepExc]⟩

/-- Bridge: the outcomes of `run` are those of `runLoop` from the initial
state. -/
theorem run_outcomes_eq (cfg : Config) (inputs : List LoopInput) :
    (run cfg inputs).outcomes =
      (runLoop cfg { tick := 0, errcount := 0, published := [] } inputs).1 := by
  unfold run
  rcases h : runLoop cfg { tick := 0, errcount := 0, published := [] } inputs with ⟨os, s, fat⟩
  cases fat <;> simp

/-- Bridge: the final state of `run` is that of `runLoop` from the initial
state. -/
theorem run_final_eq (cfg : Config) (inputs : List LoopInput) :
    (run cfg inputs).final =
      (runLoop cfg { tick := 0, errcount := 0, published := [] } inputs).2.1 := by
  unfold run
  rcases h : runLoop cfg { tick := 0, errcount := 0, published := [] } inputs with ⟨os, s, fat⟩
  cases fat <;> simp

/-- Bridge: the propagated error of `run` is that of `runLoop` from the
initial state. -/
theorem run_error_eq (cfg : Config) (inputs : List LoopInput) :
    (run cfg inputs).error =
      (runLoop cfg { tick := 0, errcount := 0, published := [] } inputs).2.2 := by
  unfold run
  rcases h : runLoop cfg { tick := 0, errcount := 0, published := [] } inputs with ⟨os, s, fat⟩
  cases fat <;> simp

/-- Bridge: `run` disconnects once exactly when `runLoop` raised nothing. -/
theorem run_disconnects_eq (cfg : Config) (inputs : List LoopInput) :
    (run cfg inputs).disconnects =
      (if (runLoop cfg { tick := 0, errcount := 0, published := [] } inputs).2.2 = none
       then 1 else 0) := by
  unfold run
  rcases h : runLoop cfg { tick := 0, errcount := 0, published := [] } inputs with ⟨os, s, fat⟩
  cases fat <;> simp

/-- Throttling invariant of the run loop: starting from a tick congruent
to the number of already-consumed items modulo the interval, each emitted
outcome is a forward attempt exactly for the non-empty items at positions
that are multiples of the interval (1-indexed), and the loop emits one
outcome per consumed item (all of them when no exception terminates it). -/
theorem runLoop_attempt_iff (cfg : Config) (hN : cfg.interval ≠ 0) :
    ∀ (inputs : List LoopInput) (s : LoopState) (c : Nat),
      s.tick % cfg.interval = c % cfg.interval →
      ((runLoop cfg s inputs).1.length ≤ inputs.length ∧
        ((runLoop cfg s inputs).2.2 = none →
          (runLoop cfg s inputs).1.length = inputs.length)) ∧
      ∀ k, k < (runLoop cfg s inputs).1.length →
        (((runLoop cfg s inputs).1.getD k .skipped).attemptedb = true ↔
          (isEmptyItem ((inputs.getD k { item := none, pubOk := true, now := 0 }).item) = false ∧
            (c + k + 1) % cfg.interval = 0)) := by
  intro inputs
  induction inputs with
  | nil => intro s c hmod; simp [runLoop]
  | cons inp rest ih =>
    intro s c hmod
    have hmod1 : (s.tick + 1) % cfg.interval = (c + 1) % cfg.interval :=
      Nat.ModEq.add_right 1 hmod
    by_cases hempty : isEmptyItem inp.item = true
    · -- empty item: skipped, tick incremented, loop continues
      rw [runLoop, step_empty cfg s inp hempty]
      dsimp only
      obtain ⟨⟨hlen, hlenq⟩, hiff⟩ := ih { s with tick := s.tick + 1 } (c + 1) hmod1
      refine ⟨⟨by simpa using Nat.succ_le_succ hlen, fun hnone => by simp [hlenq hnone]⟩, ?_⟩
      intro k hk
      match k with
      | 0 =>
        simp only [List.getD_cons_zero, ItemOutcome.attemptedb]
        simp [hempty]
      | k + 1 =>
        simp only [List.getD_cons_succ]
        have hk' : k < (runLoop cfg { s with tick := s.tick + 1 } rest).1.length := by
          simpa using hk
        have := hiff k hk'
        rw [this]
        constructor
        · rintro ⟨h1, h2⟩
          exact ⟨h1, by rw [show c + (k + 1) + 1 = c + 1 + k + 1 from by omega]; exact h2⟩
        · rintro ⟨h1, h2⟩
          exact ⟨h1, by rw [show c + 1 + k + 1 = c + (k + 1) + 1 from by omega]; exact h2⟩
    · -- non-empty item
      have hempty' : isEmptyItem inp.item = false := by
        cases h : isEmptyItem inp.item
        · rfl
        · exact absurd h hempty
      rcases hi : inp.item with _ | line
      · rw [hi] at hempty'; simp [isEmptyItem] at hempty'
      · have hline : line ≠ "" := by
          rw [hi] at hempty'
          simpa [isEmptyItem] using hempty'
        by_cases hfwd : (s.tick + 1) % cfg.interval = 0
        · -- forward attempt
          obtain ⟨b, s', fat, hstep, htick, _⟩ :=
            step_forward cfg s inp line hi hline hN hfwd
          have hc1 : (c + 1) % cfg.interval = 0 := by rw [← hmod1]; exact hfwd
          rw [runLoop, hstep]
          cases fat with
          | some e =>
            dsimp only
            refine ⟨⟨by simp, fun hnone => by simp at hnone⟩, ?_⟩
            intro k hk
            match k with
            | 0 =>
              simp only [List.getD_cons_zero, ItemOutcome.attemptedb]
              simp [hi, isEmptyItem, hline, hc1]
            | k + 1 => simp at hk
          | none =>
            dsimp only
            have hmod' : s'.tick % cfg.interval = (c + 1) % cfg.interval := by
              rw [htick, Nat.zero_mod, hc1]
            obtain ⟨⟨hlen, hlenq⟩, hiff⟩ := ih s' (c + 1) hmod'
            refine ⟨⟨by simpa using Nat.succ_le_succ hlen,
                     fun hnone => by simp [hlenq hnone]⟩, ?_⟩
            intro k hk
            match k with
            | 0 =>
              simp only [List.getD_cons_zero, ItemOutcome.attemptedb]
              simp [hi, isEmptyItem, hline, hc1]
            | k + 1 =>
              simp only [List.getD_cons_succ]
              have hk' : k < (runLoop cfg s' rest).1.length := by simpa using hk
              have := hiff k hk'
              rw [this]
              constructor
              · rintro ⟨h1, h2⟩
                exact ⟨h1, by rw [show c + (k + 1) + 1 = c + 1 + k + 1 from by omega]; exact h2⟩
              · rintro ⟨h1, h2⟩
                exact ⟨h1, by rw [show c + 1 + k + 1 = c + (k + 1) + 1 from by omega]; exact h2⟩
        · -- throttled
          rw [runLoop, step_throttled cfg s inp line hi hline hN hfwd]
          dsimp only
          have hc1 : (c + 1) % cfg.interval ≠ 0 := by rw [← hmod1]; exact hfwd
          obtain ⟨⟨hlen, hlenq⟩, hiff⟩ := ih { s with tick := s.tick + 1 } (c + 1) hmod1
          refine ⟨⟨by simpa using Nat.succ_le_succ hlen,
                   fun hnone => by simp [hlenq hnone]⟩, ?_⟩
          intro k hk
          match k with
          | 0 =>
            simp only [List.getD_cons_zero, ItemOutcome.attemptedb]
            simp [hc1]
          | k + 1 =>
            simp only [List.getD_cons_succ]
            have hk' : k < (runLoop cfg { s with tick := s.tick + 1 } rest).1.length := by
              simpa using hk
            have := hiff k hk'
            rw [this]
            constructor
            · rintro ⟨h1, h2⟩
              exact ⟨h1, by rw [show c + (k + 1) + 1 = c + 1 + k + 1 from by omega]; exact h2⟩
            · rintro ⟨h1, h2⟩
              exact ⟨h1, by rw [show c + 1 + k + 1 = c + (k + 1) + 1 from by omega]; exact h2⟩

/-- Whenever an iteration enters the forward branch, the successor tick is
0 (the branch resets the counter before doing anything that can raise). -/
theorem step_tick_reset (cfg : Config) (s : LoopState) (inp : LoopInput)
    (h : ((step cfg s inp).1).attemptedb = true) : ((step cfg s inp).2.1).tick = 0 := by
  by_cases hempty : isEmptyItem inp.item = true
  · rw [step_empty cfg s inp hempty] at h
    simp [ItemOutcome.attemptedb] at h
  · rcases hi : inp.item with _ | line
    · rw [hi] at hempty
      simp [isEmptyItem] at hempty
    · have hline : line ≠ "" := by
        intro hl
        exact hempty (by rw [hi, hl]; rfl)
      by_cases hN : cfg.interval = 0
      · have hz : step cfg s inp =
            (.divErr, { s with tick := s.tick + 1 }, some .zeroDivisionError) := by
          unfold step
          rw [hi]
          dsimp only
          rw [if_neg hline, if_pos hN]
        rw [hz] at h
        simp [ItemOutcome.attemptedb] at h
      · by_cases hmod : (s.tick + 1) % cfg.interval = 0
        · obtain ⟨b, s', fat, hstep, htick, _⟩ := step_forward cfg s inp line hi hline hN hmod
          rw [hstep]
          exact htick
        · rw [step_throttled cfg s inp line hi hline hN hmod] at h
          simp [ItemOutcome.attemptedb] at h

/-- The error counter never decreases across an iteration — it is never
reset within a run. -/
theorem step_errcount_mono (cfg : Config) (s : LoopState) (inp : LoopInput) :
    s.errcount ≤ ((step cfg s inp).2.1).errcount := by
  by_cases hempty : isEmptyItem inp.item = true
  · rw [step_empty cfg s inp hempty]
  · rcases hi : inp.item with _ | line
    · rw [hi] at hempty
      simp [isEmptyItem] at hempty
    · have hline : line ≠ "" := by
        intro hl
        exact hempty (by rw [hi, hl]; rfl)
      by_cases hN : cfg.interval = 0
      · have hz : step cfg s inp =
            (.divErr, { s with tick := s.tick + 1 }, some .zeroDivisionError) := by
          unfold step
          rw [hi]
          dsimp only
          rw [if_neg hline, if_pos hN]
        rw [hz]
      · by_cases hmod : (s.tick + 1) % cfg.interval = 0
        · obtain ⟨b, s', fat, hstep, _, herr⟩ := step_forward cfg s inp line hi hline hN hmod
          rw [hstep]
          exact herr
        · rw [step_throttled cfg s inp line hi hline hN hmod]

/-- C1: with any configured interval N ≥ 1, a forward (publish) attempt
occurs on exactly every Nth consumed item (1-indexed) among the non-empty
ones; empty/absent items are consumed and skipped without forwarding
(with N = 1 every non-empty item is forwarded); and the tick counter is
reset to 0 whenever a message is forwarded. -/
theorem C1_throttling (cfg : Config) (N : Nat) (hN : 1 ≤ N) (hcfg : cfg.interval = N)
    (inputs : List LoopInput) :
    ((run cfg inputs).outcomes.length ≤ inputs.length ∧
      ((run cfg inputs).error = none → (run cfg inputs).outcomes.length = inputs.length)) ∧
    (∀ k, k < (run cfg inputs).outcomes.length →
      (((run cfg inputs).outcomes.getD k .skipped).attemptedb = true ↔
        (isEmptyItem ((inputs.getD k { item := none, pubOk := true, now := 0 }).item) = false ∧
          (k + 1) % N = 0))) ∧
    (∀ (s : LoopState) (inp : LoopInput),
      ((step cfg s inp).1).attemptedb = true → ((step cfg s inp).2.1).tick = 0) := by
  subst hcfg
  have hN0 : cfg.interval ≠ 0 := by omega
  obtain ⟨⟨hlen, hlenq⟩, hiff⟩ := runLoop_attempt_iff cfg hN0 inputs
      { tick := 0, errcount := 0, published := [] } 0 rfl
  refine ⟨⟨?_, ?_⟩, ?_, fun s inp h => step_tick_reset cfg s inp h⟩
  · rw [run_outcomes_eq]
    exact hlen
  · rw [run_outcomes_eq, run_error_eq]
    exact hlenq
  · intro k hk
    rw [run_outcomes_eq] at hk ⊢
    have := hiff k hk
    rw [show 0 + k + 1 = k + 1 from by omega] at this
    exact this

/-- Witness for C1 at interval 2 over four items (the second empty): the
fourth item is a forward attempt. -/
theorem C1_throttling_witness :
    ((run cfgW inputsW).outcomes.getD 3 .skipped).attemptedb = true :=
  ((C1_throttling cfgW 2 (by decide) rfl inputsW).2.1 3 (by decide)).mpr (by decide)

/-- Running the loop over `n` items that each raise a processing
exception, starting from error count `e` with `e + n ≤ 10`: the loop
survives and the error counter ends at `e + n`. -/
theorem runLoop_badInputs :
    ∀ (n e : Nat) (pub : List Publish), e + n ≤ 10 →
      (runLoop cfgBad ⟨0, e, pub⟩ (badInputs n)).2.2 = none ∧
      (runLoop cfgBad ⟨0, e, pub⟩ (badInputs n)).2.1.errcount = e + n := by
  intro n
  induction n with
  | zero => intro e pub h; simp [badInputs, runLoop]
  | succ n ih =>
    intro e pub h
    have hstep : step cfgBad ⟨0, e, pub⟩ badInput =
        (.attempted false, ⟨0, e + 1, pub⟩,
         if 10 < e + 1 then some .indexError else none) := by
      with_unfolding_all rfl
    have hlt : ¬ (10 < e + 1) := by omega
    rw [show badInputs (n + 1) = badInput :: badInputs n from rfl,
        runLoop, hstep, if_neg hlt]
    dsimp only
    obtain ⟨h1, h2⟩ := ih (e + 1) pub (by omega)
    exact ⟨h1, by rw [h2]; omega⟩

/-- C2: every processing exception increments the error counter, which
never decreases within a run; the loop re-raises exactly when the counter
exceeds 10, so a run whose items all raise survives 10 exceptions with
the counter at 10, while the 11th exception terminates the loop and
propagates, the counter ending at 11. -/
theorem C2_error_budget :
    (∀ (cfg : Config) (s : LoopState) (inp : LoopInput),
        s.errcount ≤ ((step cfg s inp).2.1).errcount) ∧
    (∀ n, n ≤ 10 →
        (run cfgBad (badInputs n)).error = none ∧
        (run cfgBad (badInputs n)).final.errcount = n) ∧
    (run cfgBad (badInputs 11)).error = some .indexError ∧
    (run cfgBad (badInputs 11)).final.errcount = 11 ∧
    (run cfgBad (badInputs 11)).outcomes.length = 11 := by
  refine ⟨step_errcount_mono, ?_, by decide, by decide, by decide⟩
  intro n hn
  obtain ⟨h1, h2⟩ := runLoop_badInputs n 0 [] (by omega)
  rw [run_error_eq, run_final_eq]
  exact ⟨h1, by rw [h2]; omega⟩

/-- Witness for C2: after exactly 10 processing exceptions the loop has
not terminated and the counter reads 10. -/
theorem C2_error_budget_witness :
    (run cfgBad (badInputs 10)).error = none ∧
    (run cfgBad (badInputs 10)).final.errcount = 10 :=
  C2_error_budget.2.1 10 (by omega)

/-- Counterexample to C3: on the fatal error-budget path (11 processing
exceptions) the exception propagates out of `run` and
`self.client.disconnect()` is never called — the claim that the client is
disconnected exactly once on every loop exit fails. -/
theorem C3_counterexample :
    (run cfgBad (badInputs 11)).error = some .indexError ∧
    (run cfgBad (badInputs 11)).disconnects = 0 := by decide

/-- C3 (amended): the MQTT client is disconnected exactly once when the
loop exits normally via the shutdown signal; on any exceptional exit —
including the error-budget re-raise — the exception propagates without a
disconnect (there is no try/finally around the loop). -/
theorem C3_disconnect_on_exit (cfg : Config) (inputs : List LoopInput) :
    ((run cfg inputs).error = none → (run cfg inputs).disconnects = 1) ∧
    (∀ e, (run cfg inputs).error = some e → (run cfg inputs).disconnects = 0) := by
  rw [run_error_eq, run_disconnects_eq]
  constructor
  · intro h
    rw [if_pos h]
  · intro e h
    rw [h]
    simp

/-- Witness for C3 (amended): a clean run disconnects once; the
error-budget run disconnects zero times. -/
theorem C3_disconnect_on_exit_witness :
    (run cfgBad []).disconnects = 1 ∧ (run cfgBad (badInputs 11)).disconnects = 0 :=
  ⟨(C3_disconnect_on_exit cfgBad []).1 (by decide),
   (C3_disconnect_on_exit cfgBad (badInputs 11)).2 .indexError (by decide)⟩

/-- Counterexample to C5: on the verbatim sample line (18 tokens, fused
`speed`/`course` token) with forward-fields
`[gravity, latitude, longitude, datetime]`, `extract_fields` raises
`IndexError` at the `datetime` position, the run-loop handler absorbs it,
and nothing at all is published — the claimed payload never exists. -/
theorem C5_counterexample :
    extract_fields cfg5.fields 0 0 sampleLine _marine_fieldmap = .error .indexError ∧
    (run cfg5 [{ item := some sampleLine, pubOk := true, now := 0 }]).final.published = [] ∧
    (run cfg5 [{ item := some sampleLine, pubOk := true, now := 0 }]).final.errcount = 1 ∧
    (run cfg5 [{ item := some sampleLine, pubOk := true, now := 0 }]).error = none := by
  refine ⟨by decide, by decide, by decide, by decide⟩

/-- C5 (amended): on the sample line with the missing comma restored, the
single publish is issued at QoS 0 on the configured topic with payload
`d` = sensorid, `t` = the timestamp of the last token, and `v` holding
`gravity` as the float of token 2, `latitude`/`longitude` as the floats
of tokens 15/16, and `datetime` as the Unix timestamp of the last
token. -/
theorem C5_amended_publish :
    run cfg5 [{ item := some sampleLineFixed, pubOk := true, now := 0 }] =
      { outcomes := [.attempted true],
        final := { tick := 0, errcount := 0, published :=
          [{ topic := "gravity/sensor01", d := some "sensor01",
             t := ((1512581628 : Int) : ℚ),
             v := [("gravity", .vFloat (mkRat 20083 1)),
                   ("latitude", .vFloat (mkRat 399092261667 10000000000)),
                   ("longitude", .vFloat (-(mkRat 1050747506667 10000000000))),
                   ("datetime", .vFloat ((1512581628 : Int) : ℚ))], qos := 0 }] },
        error := none, disconnects := 1 } ∧
    (pySplit sampleLineFixed).getD 1 "" = "20083" ∧
    (pySplit sampleLineFixed).getD 14 "" = "39.9092261667" ∧
    (pySplit sampleLineFixed).getD 15 "" = "-105.0747506667" ∧
    (pySplit sampleLineFixed).getLast? = some "20171206173348" ∧
    pyParseFloat "20083" = some (mkRat 20083 1) ∧
    pyParseFloat "39.9092261667" = some (mkRat 399092261667 10000000000) ∧
    pyParseFloat "-105.0747506667" = some (-(mkRat 1050747506667 10000000000)) ∧
    convert_time 0 0 "20171206173348" = ((1512581628 : Int) : ℚ) := by
  refine ⟨by decide, by decide, by decide, by decide, by decide, by decide, by decide,
          by decide, by decide⟩

/-- Counterexample to C6: under a non-zero local UTC offset (here +3600 s,
e.g. CET), `convert_time` returns the local-time interpretation, which
differs from the UTC timestamp of the parsed calendar reading; the
parse-failure fallback is likewise offset from the current instant. -/
theorem C6_counterexample :
    convert_time 3600 0 "20171206173348" ≠ ((1512581628 : Int) : ℚ) ∧
    convert_time 3600 ((1512581628 : Int) : ℚ) "not-a-date" ≠ ((1512581628 : Int) : ℚ) := by
  refine ⟨by decide, by decide⟩

/-- C6 (amended): `convert_time` parses YYYYMMDDHHMMSS and interprets it
— like its `utcnow()` fallback — through the process's local timezone;
when the local UTC offset is zero it returns the UTC timestamp
(1512581628 for "20171206173348"), and on parse failure it returns the
current instant instead of raising. -/
theorem C6_convert_time_localtime (now : ℚ) :
    convert_time 0 now "20171206173348" = 1512581628 ∧
    parseYmdHms "not-a-date" = none ∧
    convert_time 0 now "not-a-date" = now := by
  have hp : parseYmdHms "20171206173348" = some 1512581628 := by decide
  have hq : parseYmdHms "not-a-date" = none := by decide
  refine ⟨?_, hq, ?_⟩
  · unfold convert_time
    rw [hp]
    norm_num
  · unfold convert_time
    rw [hq, ratSub_eq]
    norm_num

/-- C7: `convert_gps_time` is the pure total function
`315964800 + week * 604800 + week_seconds`, with no leap-second
correction; in particular it maps (0,0) to 315964800 and (1,0) to
315964800 + 604800. -/
theorem C7_convert_gps_time :
    (∀ w s : ℚ, convert_gps_time w s = 315964800 + w * 604800 + s) ∧
    convert_gps_time 0 0 = 315964800 ∧
    convert_gps_time 1 0 = 315964800 + 604800 := by
  refine ⟨fun w s => ?_, ?_, ?_⟩
  · show (315964800 : ℚ) + (w * 604800 + s) = 315964800 + w * 604800 + s
    ring
  · show (315964800 : ℚ) + ((0 : ℚ) * 604800 + 0) = 315964800
    norm_num
  · show (315964800 : ℚ) + ((1 : ℚ) * 604800 + 0) = 315964800 + 604800
    norm_num

/-- C8 (code bug evaluated): with `sensorid` unset, `configure_client`
leaves `sensorid = None` for every possible random `uuid` draw — the
random 8-character fallback written in the source is dead because
`__init__` pre-sets the attribute; `topicid` does fall back to
`sensorid`, the topic is built as `topic_pfx/topicid`, and a missing
endpoint raises `ValueError`. -/
theorem C8_configure_client_sensorid (rand8 : String) :
    configure_client { sensorid := none, topicid := some "topic1",
                       topic_pfx := "gravity", endpoint := some "endpoint.example" } rand8 =
      .ok { sensorid := none, topic := "gravity/topic1" } ∧
    configure_client { sensorid := some "abc12345", topicid := none,
                       topic_pfx := "gravity", endpoint := some "endpoint.example" } rand8 =
      .ok { sensorid := some "abc12345", topic := "gravity/abc12345" } ∧
    configure_client { sensorid := none, topicid := none,
                       topic_pfx := "gravity", endpoint := none } rand8 =
      .error .valueError :=
  ⟨rfl, rfl, rfl⟩

/-- Iteration with `interval = 0` on a non-empty item: the loop condition
itself raises `ZeroDivisionError`, outside the per-item handler. -/
theorem step_interval_zero (cfg : Config) (hcfg : cfg.interval = 0) (s : LoopState)
    (inp : LoopInput) (hitem : isEmptyItem inp.item = false) :
    step cfg s inp = (.divErr, { s with tick := s.tick + 1 }, some .zeroDivisionError) := by
  rcases hi : inp.item with _ | line
  · rw [hi] at hitem
    simp [isEmptyItem] at hitem
  · have hline : line ≠ "" := by
      rw [hi] at hitem
      simpa [isEmptyItem] using hitem
    unfold step
    rw [hi]
    dsimp only
    rw [if_neg hline, if_pos hcfg]

/-- Running the loop with `interval = 0` over empty items followed by a
non-empty one: the empty items are consumed normally, the first non-empty
item raises `ZeroDivisionError`, and the error counter is untouched. -/
theorem runLoop_interval_zero (cfg : Config) (hcfg : cfg.interval = 0) :
    ∀ (pre : List LoopInput) (s : LoopState) (inp : LoopInput) (rest : List LoopInput),
      (∀ x ∈ pre, isEmptyItem x.item = true) →
      isEmptyItem inp.item = false →
      (runLoop cfg s (pre ++ inp :: rest)).2.2 = some .zeroDivisionError ∧
      (runLoop cfg s (pre ++ inp :: rest)).2.1.errcount = s.errcount ∧
      (runLoop cfg s (pre ++ inp :: rest)).1.length = pre.length + 1 := by
  intro pre
  induction pre with
  | nil =>
    intro s inp rest hpre hitem
    rw [List.nil_append, runLoop, step_interval_zero cfg hcfg s inp hitem]
    exact ⟨rfl, rfl, rfl⟩
  | cons x pre ih =>
    intro s inp rest hpre hitem
    rw [List.cons_append, runLoop, step_empty cfg s x (hpre x (by simp))]
    dsimp only
    obtain ⟨h1, h2, h3⟩ := ih { s with tick := s.tick + 1 } inp rest
      (fun y hy => hpre y (by simp [hy])) hitem
    exact ⟨h1, by simpa using h2, by simp [h3]⟩

/-- C10 (amended): with `interval = 0` the `tick % interval` check raises
`ZeroDivisionError` on the first non-empty consumed item (empty/absent
items short-circuit the check and are consumed without error); the error
occurs outside the per-item handler, so the run terminates immediately
with the error counter not incremented and no disconnect. -/
theorem C10_interval_zero (cfg : Config) (hcfg : cfg.interval = 0)
    (pre : List LoopInput) (inp : LoopInput) (rest : List LoopInput)
    (hpre : ∀ x ∈ pre, isEmptyItem x.item = true)
    (hitem : isEmptyItem inp.item = false) :
    (run cfg (pre ++ inp :: rest)).error = some .zeroDivisionError ∧
    (run cfg (pre ++ inp :: rest)).final.errcount = 0 ∧
    (run cfg (pre ++ inp :: rest)).outcomes.length = pre.length + 1 ∧
    (run cfg (pre ++ inp :: rest)).disconnects = 0 := by
  obtain ⟨h1, h2, h3⟩ := runLoop_interval_zero cfg hcfg pre
    { tick := 0, errcount := 0, published := [] } inp rest hpre hitem
  rw [run_error_eq, run_final_eq, run_outcomes_eq, run_disconnects_eq]
  refine ⟨h1, h2, h3, by rw [h1]; simp⟩

/-- Witness for C10 (amended): one empty item then a one-token line under
`interval = 0`. -/
theorem C10_interval_zero_witness :
    (run cfgZ ([emptyInput] ++ badInput :: [])).error = some .zeroDivisionError ∧
    (run cfgZ ([emptyInput] ++ badInput :: [])).final.errcount = 0 ∧
    (run cfgZ ([emptyInput] ++ badInput :: [])).outcomes.length = [emptyInput].length + 1 ∧
    (run cfgZ ([emptyInput] ++ badInput :: [])).disconnects = 0 :=
  C10_interval_zero cfgZ rfl [emptyInput] badInput [] (by decide) (by decide)

/-- Counterexample to C10 as stated: when the very first consumed item is
empty, the short-circuit skips the `tick % 0` expression, so no
`ZeroDivisionError` is raised on the very first consumed item. -/
theorem C10_counterexample :
    (run cfgZ [emptyInput]).error = none ∧
    (run cfgZ [emptyInput]).outcomes = [.skipped] ∧
    (run cfgZ [emptyInput]).disconnects = 1 := by
  refine ⟨by decide, by decide, by decide⟩
